import Mathlib

/-!
# Verification of the anti-api account pool / scheduler

Shallow embedding of the account-manager subsystem (the `AccountManager`
class and its helpers) together with proofs about the frozen behavioural
claims.  Source line numbers cited in doc comments refer to the
account-manager module.

Times are epoch milliseconds modelled as `Nat`; JavaScript numeric
comparisons on them are order comparisons only, so `Nat` is faithful.
Quota percentages are modelled as `Int` (only order comparisons occur).
External collaborators (auth store, quota aggregator, settings, routing
config, OAuth refresh, `JSON.parse`) are modelled as explicit inputs.
-/

namespace AntiApi

/-- `needle` occurs contiguously inside `hay`. -/
def charsInfix (needle : List Char) : List Char → Bool
  | [] => needle.isEmpty
  | c :: rest => needle.isPrefixOf (c :: rest) || charsInfix needle rest

/-- JS `String.prototype.includes(needle)` over the characters of the string. -/
def strIncludes (hay needle : String) : Bool :=
  charsInfix needle.toList hay.toList

/-- ASCII lowering of one character.  JS `toLowerCase()` is Unicode-aware,
but every keyword and model-id token the code compares against is ASCII, so
the ASCII mapping is the relevant fragment. -/
def lowerChar (c : Char) : Char :=
  if 65 ≤ c.toNat ∧ c.toNat ≤ 90 then Char.ofNat (c.toNat + 32) else c

/-- JS `String.prototype.toLowerCase()` (ASCII fragment). -/
def strToLower (s : String) : String := ⟨s.data.map lowerChar⟩

/-- Whitespace stripped by `String.prototype.trim()`. -/
def isSpaceChar (c : Char) : Bool :=
  c = ' ' || c = '\t' || c = '\n' || c = '\r'

/-- JS `String.prototype.trim()`. -/
def strTrim (s : String) : String :=
  ⟨((s.data.dropWhile isSpaceChar).reverse.dropWhile isSpaceChar).reverse⟩

/-- JS `String.prototype.startsWith(pre)`. -/
def strStartsWith (s pre : String) : Bool := pre.data.isPrefixOf s.data

/-- The five-way failure taxonomy (source lines 20-25). -/
inductive RateLimitReason where
  | quota_exhausted
  | rate_limit_exceeded
  | model_capacity_exhausted
  | server_error
  | unknown
deriving DecidableEq, Repr

/-- JSON values, the result type of the builtin `JSON.parse`. -/
inductive Json where
  | null
  | bool (b : Bool)
  | num (n : Int)
  | str (s : String)
  | arr (xs : List Json)
  | obj (fields : List (String × Json))

/-- JS optional chaining `j?.[name]`: field lookup that yields nothing on
non-objects and missing fields. -/
def Json.get? : Json → String → Option Json
  | .obj fields, name => (fields.find? (fun f => f.1 = name)).map (·.2)
  | _, _ => none

/-- Map a `details[].reason` string to a taxonomy member (lines 48-50);
unrecognised strings leave the loop scanning further entries. -/
def detailReason : Json → Option RateLimitReason
  | .str r =>
      if r = "QUOTA_EXHAUSTED" then some .quota_exhausted
      else if r = "RATE_LIMIT_EXCEEDED" then some .rate_limit_exceeded
      else if r = "MODEL_CAPACITY_EXHAUSTED" then some .model_capacity_exhausted
      else none
  | _ => none

/-- The body of the `try` block at lines 39-74: the verdict extracted from a
successfully parsed JSON error body, `none` when control falls through to the
keyword scan.

Lines 44-53 scan `error.details` for a recognised `reason` string.
Lines 56-63 check the lowercased `error.message` for rate-limit phrases.
Lines 67-74 test `error.status == "RESOURCE_EXHAUSTED"` and then read
`msgLower`; but `msgLower` is declared by `const` inside the block at
lines 57-63 and is out of scope at line 70, so at runtime (the project is
executed by bun, which strips types without typechecking) reaching line 70
throws a `ReferenceError` which the `catch` at line 75 swallows; and when the
status test fails the `try` block simply ends.  Either way control continues
at the keyword scan, so the status test at lines 67-74 never produces a
verdict. -/
def jsonVerdict (j : Json) : Option RateLimitReason :=
  let fromDetails : Option RateLimitReason :=
    match (j.get? "error").bind (·.get? "details") with
    | some (.arr ds) => ds.findSome? (fun d => (d.get? "reason").bind detailReason)
    | _ => none
  match fromDetails with
  | some r => some r
  | none =>
    match (j.get? "error").bind (·.get? "message") with
    | some (.str m) =>
        let msgLower := strToLower m
        if strIncludes msgLower "per minute" || strIncludes msgLower "rate limit"
            || strIncludes msgLower "too many requests" then
          some .rate_limit_exceeded
        else none
    | _ => none

/-- The structured-parsing phase of the classifier (lines 35-78): trim,
check for a JSON-looking prefix, parse with the supplied `JSON.parse`
oracle, and extract a verdict.  `pj` stands for the JS builtin
`JSON.parse`, returning `none` where the builtin throws. -/
def structuredVerdict (pj : String → Option Json) (errorText : String) :
    Option RateLimitReason :=
  let trimmed := strTrim errorText
  if strStartsWith trimmed "\x7b" || strStartsWith trimmed "[" then
    (pj trimmed).bind jsonVerdict
  else none

/-- The fallback keyword scan over the lowercased body (lines 80-96). -/
def keywordScan (errorText : String) : RateLimitReason :=
  let lower := strToLower errorText
  if strIncludes lower "per minute" || strIncludes lower "rate limit"
      || strIncludes lower "too many requests" then
    .rate_limit_exceeded
  else if strIncludes lower "model_capacity" || strIncludes lower "capacity" then
    .model_capacity_exhausted
  else if strIncludes lower "quota" then
    .quota_exhausted
  else if strIncludes lower "exhausted" then
    .rate_limit_exceeded
  else
    .unknown

/-- `parseRateLimitReason` (lines 27-97).  Non-429 statuses never reach the
body inspection (lines 28-33). -/
def parseRateLimitReason (pj : String → Option Json) (statusCode : Nat)
    (errorText : String) : RateLimitReason :=
  if statusCode ≠ 429 then
    if statusCode ≥ 500 then .server_error else .unknown
  else
    match structuredVerdict pj errorText with
    | some r => r
    | none => keywordScan errorText

/-- `defaultRateLimitMs` (lines 99-136): reason-specific lockout durations,
escalating with the consecutive-failure count for quota exhaustion. -/
def defaultRateLimitMs (reason : RateLimitReason) (failures : Nat) : Nat :=
  match reason with
  | .quota_exhausted =>
      if failures ≤ 1 then 5 * 60000
      else if failures = 2 then 15 * 60000
      else if failures = 3 then 60 * 60000
      else 2 * 60 * 60000
  | .rate_limit_exceeded => 30000
  | .model_capacity_exhausted => 15000
  | .server_error => 20000
  | .unknown => 60000

/-- Model categories (line 233). -/
inductive ModelCategory where
  | llm
  | image
  | unknown
deriving DecidableEq, Repr

/-- Per-category rate-limit record (lines 238-241). -/
structure CategoryRateLimit where
  untilMs : Nat
  failures : Nat
deriving DecidableEq, Repr

/-- The `categoryRateLimits : Map<ModelCategory, CategoryRateLimit>` field:
its keys range over the three-element `ModelCategory` type, so the map is
represented by one optional entry per category. -/
structure CategoryRateLimits where
  llmLimit : Option CategoryRateLimit
  imageLimit : Option CategoryRateLimit
  unknownLimit : Option CategoryRateLimit
deriving DecidableEq, Repr

namespace CategoryRateLimits

/-- `categoryRateLimits.get(c)`. -/
def get (m : CategoryRateLimits) : ModelCategory → Option CategoryRateLimit
  | .llm => m.llmLimit
  | .image => m.imageLimit
  | .unknown => m.unknownLimit

/-- `categoryRateLimits.set(c, v)`. -/
def set (m : CategoryRateLimits) (c : ModelCategory) (v : CategoryRateLimit) :
    CategoryRateLimits :=
  match c with
  | .llm => { m with llmLimit := some v }
  | .image => { m with imageLimit := some v }
  | .unknown => { m with unknownLimit := some v }

/-- `categoryRateLimits.delete(c)`. -/
def del (m : CategoryRateLimits) (c : ModelCategory) : CategoryRateLimits :=
  match c with
  | .llm => { m with llmLimit := none }
  | .image => { m with imageLimit := none }
  | .unknown => { m with unknownLimit := none }

/-- `new Map()`. -/
def empty : CategoryRateLimits := ⟨none, none, none⟩

/-- `categoryRateLimits.size > 0`. -/
def nonempty (m : CategoryRateLimits) : Bool :=
  m.llmLimit.isSome || m.imageLimit.isSome || m.unknownLimit.isSome

/-- `categoryRateLimits.has(c)`. -/
def mem (m : CategoryRateLimits) (c : ModelCategory) : Bool :=
  (m.get c).isSome

end CategoryRateLimits

/-- One pooled credential (lines 243-255). -/
structure Account where
  id : String
  email : String
  accessToken : String
  refreshToken : String
  expiresAt : Nat
  projectId : Option String
  categoryRateLimits : CategoryRateLimits
  rateLimitedUntil : Option Nat
  consecutiveFailures : Nat
deriving DecidableEq, Repr

/-- JS truthiness of an optional string (`undefined`, `null` and `""` are
falsy). -/
def strTruthy : Option String → Bool
  | some s => s ≠ ""
  | none => false

/-- `getModelCategory` (lines 144-159): substring heuristics over the
lowercased model id; image keywords are tested before the LLM family list. -/
def getModelCategory (modelId : Option String) : ModelCategory :=
  match modelId with
  | none => .unknown
  | some mid =>
    if mid = "" then .unknown   -- `if (!modelId)`: the empty string is falsy
    else
      let lower := strToLower mid
      if strIncludes lower "image" || strIncludes lower "imagen" then .image
      else if strIncludes lower "claude" || strIncludes lower "gpt"
          || strIncludes lower "gemini" || strIncludes lower "sonnet"
          || strIncludes lower "opus" || strIncludes lower "flash"
          || strIncludes lower "pro" then .llm
      else .unknown

/-- `account.rateLimitedUntil && account.rateLimitedUntil > now`
(the `0` value is falsy in JS, but `0 > now` is false anyway). -/
def globallyLimited (a : Account) (now : Nat) : Bool :=
  match a.rateLimitedUntil with
  | some u => u > now
  | none => false

/-- `markRateLimited` (lines 508-527), the per-account state change.  The
duration defaults to 60000 at the call site; the map lookup by account id is
done by the callers of this per-account transform. -/
def markRateLimited (a : Account) (now durationMs : Nat)
    (modelId : Option String) : Account :=
  let category := getModelCategory modelId
  if category ≠ .unknown ∧ strTruthy modelId then
    let existing := (a.categoryRateLimits.get category).getD ⟨0, 0⟩
    { a with categoryRateLimits :=
        a.categoryRateLimits.set category ⟨now + durationMs, existing.failures + 1⟩ }
  else
    { a with rateLimitedUntil := some (now + durationMs),
             consecutiveFailures := a.consecutiveFailures + 1 }

/-- `markSuccess` (lines 623-636), the per-account state change. -/
def markSuccess (a : Account) (modelId : Option String) : Account :=
  let category := getModelCategory modelId
  if category ≠ .unknown ∧ strTruthy modelId then
    { a with categoryRateLimits := a.categoryRateLimits.del category }
  else
    { a with rateLimitedUntil := none, consecutiveFailures := 0 }

/-- `isAccountRateLimited` (lines 641-664), the per-account predicate.  The
global scope is consulted first; the category scope only when a model id is
supplied and its category is known. -/
def isAccountRateLimited (a : Account) (modelId : Option String) (now : Nat) :
    Bool :=
  if globallyLimited a now then true
  else
    match modelId with
    | none => false
    | some mid =>
      if mid = "" then false   -- `if (modelId)`: empty string is falsy
      else
        let category := getModelCategory (some mid)
        if category ≠ .unknown then
          match a.categoryRateLimits.get category with
          | some catLimit => catLimit.untilMs > now
          | none => false
        else false

/-- The category-scope lockout test in isolation (lines 653-661). -/
def categoryLimited (a : Account) (c : ModelCategory) (now : Nat) : Bool :=
  match a.categoryRateLimits.get c with
  | some catLimit => catLimit.untilMs > now
  | none => false

/-- External inputs of `markRateLimitedFromError` (lines 533-618):
`retryDelayMs` is the result of `parseRetryDelay` (in `lib/retry`, outside
this subsystem's sources; modelled from the spec: a `Retry-After`-derived
delay when present and parseable, otherwise `null`); `cachedResetMs` is the
result of the quota-cache file read `getCachedResetTime`; `jitter` is the
sampled `Math.random() * 2000` for the 2-4 s backoff; `maxDurationMs` the
optional caller-supplied cap. -/
structure RateLimitCtx where
  retryDelayMs : Option Nat
  cachedResetMs : Option Nat
  jitter : Nat
  maxDurationMs : Option Nat

/-- `markRateLimitedFromError` (lines 533-618) as a per-account transform.
Returns the `{reason, durationMs}` report and the updated account. -/
def markRateLimitedFromError (pj : String → Option Json) (ctx : RateLimitCtx)
    (a : Account) (statusCode : Nat) (errorText : String)
    (modelId : Option String) (now : Nat) :
    Option (RateLimitReason × Nat) × Account :=
  let reason := parseRateLimitReason pj statusCode errorText
  let category := getModelCategory modelId
  -- Optimisation 1 (lines 553-560): cached reset time for quota exhaustion.
  let step1 : Option (Nat × Nat) :=
    if reason = .quota_exhausted ∧ strTruthy modelId then
      match ctx.cachedResetMs with
      | some cached => if cached > now then some (cached - now, cached) else none
      | none => none
    else none
  -- Optimisation 2 (lines 563-566): explicit retry delay from the API.
  let step2 : Option (Nat × Nat) :=
    match ctx.retryDelayMs with
    | some d => some (max (d + 500) 2000, now + max (d + 500) 2000)
    | none => none
  -- Optimisation 3 (lines 569-581): short defaults for plain 429s.
  let step3 : Option (Nat × Nat) :=
    if statusCode = 429 then
      let d :=
        if reason = .rate_limit_exceeded then 2000 + ctx.jitter
        else if reason = .model_capacity_exhausted then 5000
        else 10000
      some (d, now + d)
    else none
  -- Fallback to the escalating schedule (lines 584-590).
  let base : Nat × Nat :=
    match step1.orElse (fun _ => step2.orElse (fun _ => step3)) with
    | some du => du
    | none =>
      let failures :=
        if category ≠ .unknown then
          ((a.categoryRateLimits.get category).map (·.failures)).getD 0 + 1
        else a.consecutiveFailures + 1
      let d := defaultRateLimitMs reason failures
      (d, now + d)
  -- Caller-supplied cap, never applied to quota exhaustion (lines 593-597).
  let capped : Nat × Nat :=
    match ctx.maxDurationMs with
    | some m =>
        if m ≠ 0 ∧ reason ≠ .quota_exhausted ∧ base.1 > m then (m, now + m)
        else base
    | none => base
  -- Record against the category scope or the global scope (lines 600-615).
  let a' :=
    if category ≠ .unknown ∧ strTruthy modelId then
      let existing := (a.categoryRateLimits.get category).getD ⟨0, 0⟩
      { a with categoryRateLimits :=
          a.categoryRateLimits.set category ⟨capped.2, existing.failures + 1⟩ }
    else
      { a with rateLimitedUntil := some capped.2,
               consecutiveFailures := a.consecutiveFailures + 1 }
  (some (reason, capped.1), a')

/-- One record of the persisted roster file `accounts.json` (lines 357-364):
exactly the six fields written by `save`; lockout and failure-count fields
are absent from this record type. -/
structure PersistedAccount where
  id : String
  email : String
  accessToken : String
  refreshToken : String
  expiresAt : Nat
  projectId : Option String
deriving DecidableEq, Repr

/-- One record of the external auth store, as consumed by
`hydrateFromAuthStore` (lines 286-299).  Fields the code reads through `||`
defaults are optional. -/
structure StoredAccount where
  id : String
  email : Option String
  login : Option String
  accessToken : String
  refreshToken : Option String
  expiresAt : Option Nat
  projectId : Option String
deriving DecidableEq, Repr

/-- JS `a || b` on optional strings (`undefined`/`null`/`""` are falsy). -/
def orFalsy (a : Option String) (b : String) : String :=
  match a with
  | some s => if s = "" then b else s
  | none => b

/-- The mutable fields of the `AccountManager` singleton relevant to the
registry, queue, sticky marker and in-flight set (lines 257-269).  The
`accounts` list models the insertion-ordered `Map<string, Account>`; its ids
are kept unique by the operations exactly as a JS `Map` keeps keys unique. -/
structure ManagerState where
  accounts : List Account
  accountQueue : List String
  loaded : Bool
  lastUsedAccount : Option (String × Nat)
  inFlightAccounts : List String
deriving DecidableEq, Repr

namespace ManagerState

/-- `this.accounts.get(id)`. -/
def findAccount (st : ManagerState) (id : String) : Option Account :=
  st.accounts.find? (fun a => a.id = id)

/-- The key list `Array.from(this.accounts.keys())`. -/
def keysOf (st : ManagerState) : List String :=
  st.accounts.map (·.id)

/-- `this.accounts.set(id, acc)` on a JS `Map`: replace in place when the key
exists, append otherwise. -/
def mapSet (accs : List Account) (acc : Account) : List Account :=
  if accs.any (fun x => x.id = acc.id) then
    accs.map (fun x => if x.id = acc.id then acc else x)
  else
    accs ++ [acc]

/-- In-place mutation of the account object held in the map
(`account.field = ...` through the reference obtained from `get`). -/
def updAccount (st : ManagerState) (id : String) (f : Account → Account) :
    ManagerState :=
  { st with accounts := st.accounts.map (fun a => if a.id = id then f a else a) }

/-- Write back a mutated account value. -/
def setAccount (st : ManagerState) (a : Account) : ManagerState :=
  st.updAccount a.id (fun _ => a)

end ManagerState

/-- The external world consumed by the manager: routing config, quota
aggregator + blacklist, settings, OAuth helpers, auth store and the roster
file.  `refresh` returns `none` where `refreshAccessToken` throws;
`reservePercent` is the value of `getSetting("quotaReservePercent") || 0`. -/
structure Env where
  isDisabled : String → Bool
  isQuotaBlacklisted : String → String → Bool
  quotaPercent : String → String → Option Int
  reservePercent : Int
  refresh : String → Option (String × Nat)
  resolveProject : String → Option String
  mockProjectId : String
  fileAccounts : List PersistedAccount
  storeAccounts : List StoredAccount

namespace ManagerState

/-- Build the in-memory account from a stored record (lines 288-298). -/
def ofStored (s : StoredAccount) : Account :=
  { id := s.id
    email := orFalsy s.email (orFalsy s.login s.id)
    accessToken := s.accessToken
    refreshToken := orFalsy s.refreshToken ""
    expiresAt := s.expiresAt.getD 0
    projectId := match s.projectId with
                 | some p => if p = "" then none else some p
                 | none => none
    categoryRateLimits := .empty
    rateLimitedUntil := none
    consecutiveFailures := 0 }

/-- `hydrateFromAuthStore` (lines 281-300): pull records from the auth store
(`accountId` filters to one record) and register the missing ones; existing
ids are skipped, and the queue is not touched. -/
def hydrateStep (store : List StoredAccount) (filter : Option String)
    (st : ManagerState) : ManagerState :=
  let items : List StoredAccount := match filter with
    | some id => (store.find? (fun s => s.id = id)).toList
    | none => store
  items.foldl
    (fun (s : ManagerState) (stored : StoredAccount) =>
      if s.accounts.any (fun a => a.id = stored.id) then s
      else { s with accounts := s.accounts ++ [ofStored stored] })
    st

/-- Build the in-memory account from a roster-file record: `{...acc}` plus
cleared lockout state (lines 311-316). -/
def ofPersisted (p : PersistedAccount) : Account :=
  { id := p.id, email := p.email, accessToken := p.accessToken
    refreshToken := p.refreshToken, expiresAt := p.expiresAt
    projectId := p.projectId
    categoryRateLimits := .empty
    rateLimitedUntil := none
    consecutiveFailures := 0 }

/-- `load` (lines 305-346): register every roster record with cleared
lockouts, hydrate from the auth store when still empty, clear the sticky
marker and set the loaded flag.  The queue is not touched. -/
def loadStep (file : List PersistedAccount) (store : List StoredAccount)
    (st : ManagerState) : ManagerState :=
  let st1 := file.foldl
    (fun (s : ManagerState) (p : PersistedAccount) =>
      { s with accounts := mapSet s.accounts (ofPersisted p) }) st
  let st2 := if st1.accounts.isEmpty then hydrateStep store none st1 else st1
  { st2 with lastUsedAccount := none, loaded := true }

/-- `ensureLoaded` (lines 275-279). -/
def ensureLoaded (env : Env) (st : ManagerState) : ManagerState :=
  if st.loaded then st else loadStep env.fileAccounts env.storeAccounts st

/-- `save` (lines 351-369): the roster written to `accounts.json` — exactly
the six credential fields of each account, in registry order. -/
def saveRoster (st : ManagerState) : List PersistedAccount :=
  st.accounts.map (fun a =>
    { id := a.id, email := a.email, accessToken := a.accessToken
      refreshToken := a.refreshToken, expiresAt := a.expiresAt
      projectId := a.projectId })

/-- `addAccount` (lines 374-396): register (or overwrite) the account with
cleared lockout state and append its id to the queue unless present. -/
def addStep (st : ManagerState) (p : PersistedAccount) : ManagerState :=
  let acc := ofPersisted p
  let st1 := { st with accounts := mapSet st.accounts acc }
  if st1.accountQueue.contains acc.id then st1
  else { st1 with accountQueue := st1.accountQueue ++ [acc.id] }

/-- The deletion body shared by both branches of `removeAccount`
(lines 403-431): drop the registry entry, the queue entry and the in-flight
flag for one id. -/
def deleteIdStep (st : ManagerState) (id : String) : ManagerState :=
  { st with
    accounts := st.accounts.filter (fun a => a.id ≠ id)
    accountQueue := st.accountQueue.erase id
    inFlightAccounts := st.inFlightAccounts.filter (fun x => x ≠ id) }

/-- `removeAccount` (lines 401-436): delete by id, else by the first matching
email; purge the queue and the in-flight set. -/
def removeStep (st : ManagerState) (idOrEmail : String) : ManagerState :=
  if st.accounts.any (fun a => a.id = idOrEmail) then deleteIdStep st idOrEmail
  else
    match st.accounts.find? (fun a => a.email = idOrEmail) with
    | some a => deleteIdStep st a.id
    | none => st

/-- `moveToEndOfQueue` (lines 700-706): demotion after a failure. -/
def demoteStep (st : ManagerState) (id : String) : ManagerState :=
  if st.accountQueue.contains id then
    { st with accountQueue := st.accountQueue.erase id ++ [id] }
  else st

/-- `ensureQueueInitialized` (lines 711-715). -/
def ensureQueueInitialized (st : ManagerState) : ManagerState :=
  if st.accountQueue.isEmpty ∧ ¬ st.accounts.isEmpty then
    { st with accountQueue := st.keysOf }
  else st

end ManagerState

/-- The credential handle returned by the selection operations. -/
structure Credential where
  accessToken : String
  projectId : String
  email : String
  accountId : String
deriving DecidableEq, Repr

namespace ManagerState

/-- `account.projectId` is truthy and not the `"unknown"` placeholder
(line 1121). -/
def projectUsable (a : Account) : Bool :=
  match a.projectId with
  | some p => p ≠ "" ∧ p ≠ "unknown"
  | none => false

/-- `ensureProjectId` (lines 1120-1144): return the cached project id, or
resolve one (falling back to a generated mock) and store it on the account. -/
def ensureProjectId (env : Env) (st : ManagerState) (a : Account) :
    String × ManagerState :=
  if projectUsable a then ((a.projectId.getD ""), st)
  else
    let resolved :=
      match env.resolveProject a.accessToken with
      | some r => if r = "" then env.mockProjectId else r
      | none => env.mockProjectId
    (resolved, st.setAccount { a with projectId := some resolved })

/-- The `hasModelQuota` closure (lines 819-859): quota gate consulted only
when a model id is supplied — `if (!modelId) return true` at line 820, so a
missing or JS-falsy empty-string model id bypasses the gate; a blacklisted
model or an absent quota percentage is ineligible, otherwise the percentage
must strictly exceed the reserve threshold. -/
def hasModelQuota (env : Env) (st : ManagerState) (modelId : Option String)
    (accountId : String) : Bool :=
  match modelId with
  | none => true
  | some mid =>
    if mid = "" then true   -- `if (!modelId) return true`: "" is falsy
    else
      match st.findAccount accountId with
      | none => false
      | some _ =>
        if env.isQuotaBlacklisted accountId mid then false
        else
          match env.quotaPercent accountId mid with
          | none => false
          | some q => q > env.reservePercent

/-- `hasIdleAccount` (lines 862-867), computed once per selection call. -/
def hasIdleAccount (st : ManagerState) (now : Nat) : Bool :=
  st.accountQueue.any (fun id =>
    match st.findAccount id with
    | none => false
    | some a => ¬ globallyLimited a now ∧ ¬ st.inFlightAccounts.contains id)

/-- The token-refresh margin test `expiresAt > 0 && now > expiresAt - 5min`
(lines 888, 938, 1024), written over `Nat` as `now + 5min > expiresAt` to
match the JS signed arithmetic. -/
def needsRefresh (a : Account) (now : Nat) : Bool :=
  a.expiresAt > 0 ∧ now + 5 * 60 * 1000 > a.expiresAt

/-- The common tail of a successful selection (lines 898-904, 966-975):
record the sticky marker, resolve the project id and build the credential
from the (possibly refreshed) account. -/
def finishSelect (env : Env) (now : Nat) (st : ManagerState) (a : Account) :
    Option Credential × ManagerState :=
  let st1 := { st with lastUsedAccount := some (a.id, now) }
  let pid := ensureProjectId env st1 a
  (some { accessToken := a.accessToken, projectId := pid.1,
          email := a.email, accountId := a.id }, pid.2)

/-- The sticky fast path (lines 871-908): when not forcing rotation, test
only the queue head; `none` means "fall through to the full scan".  A failed
token refresh here only logs (lines 894-896) — the head is still returned
with its previous access token and no lockout is applied. -/
def fastPath (env : Env) (st : ManagerState) (forceRotate : Bool)
    (modelId : Option String) (now : Nat) (idle : Bool) :
    Option (Option Credential × ManagerState) :=
  if forceRotate ∨ st.accountQueue.isEmpty then none
  else
    match st.accountQueue.head? with
    | none => none
    | some firstId =>
      match st.findAccount firstId with
      | none => none
      | some a =>
        if globallyLimited a now then none
        else if env.isDisabled firstId then none
        else if idle ∧ st.inFlightAccounts.contains firstId then none
        else if ¬ hasModelQuota env st modelId firstId then none
        else
          let refreshed : Account × ManagerState :=
            if needsRefresh a now then
              match env.refresh a.refreshToken with
              | some (tok, expiresIn) =>
                let a1 := { a with accessToken := tok,
                                   expiresAt := now + expiresIn * 1000 }
                (a1, st.setAccount a1)
              | none => (a, st)
            else (a, st)
          some (finishSelect env now refreshed.2 refreshed.1)

/-- The full-queue scan (lines 911-976): first account passing every filter
wins; a failed token refresh sets a 60 s lockout and the scan continues
(lines 960-964). -/
def scanQueue (env : Env) (modelId : Option String) (now : Nat) (idle : Bool) :
    List String → ManagerState → Option Credential × ManagerState
  | [], st => (none, st)
  | id :: rest, st =>
    match st.findAccount id with
    | none => scanQueue env modelId now idle rest st
    | some a =>
      if env.isDisabled id then scanQueue env modelId now idle rest st
      else if globallyLimited a now then scanQueue env modelId now idle rest st
      else if idle ∧ st.inFlightAccounts.contains id then
        scanQueue env modelId now idle rest st
      else if ¬ hasModelQuota env st modelId id then
        scanQueue env modelId now idle rest st
      else if needsRefresh a now then
        match env.refresh a.refreshToken with
        | none =>
          -- `account.rateLimitedUntil = now + 60000; continue`
          scanQueue env modelId now idle rest
            (st.updAccount id (fun x => { x with rateLimitedUntil := some (now + 60000) }))
        | some (tok, expiresIn) =>
          let a1 := { a with accessToken := tok, expiresAt := now + expiresIn * 1000 }
          -- `if (!account.projectId) projectId = await getProjectID(...)` (945-947)
          let a2 := if strTruthy a1.projectId then a1
                    else { a1 with projectId := env.resolveProject a1.accessToken }
          finishSelect env now (st.setAccount a2) a2
      else
        finishSelect env now st a

/-- The body of `getNextAvailableAccount` after load/hydrate/queue-init
(lines 803-981): empty-registry bail-out, the sticky fast path, then the
full scan.  `hasIdleAccount` is evaluated once per call (line 862) — both
occurrences below denote that single pre-scan evaluation, which is sound
because the pure embedding gives both the same value. -/
def selectCore (env : Env) (forceRotate : Bool) (modelId : Option String)
    (now : Nat) (st3 : ManagerState) : Option Credential × ManagerState :=
  if st3.accounts.isEmpty then (none, st3)
  else
    match fastPath env st3 forceRotate modelId now (hasIdleAccount st3 now) with
    | some res => res
    | none => scanQueue env modelId now (hasIdleAccount st3 now) st3.accountQueue st3

/-- `getNextAvailableAccount` (lines 788-982): lazy load/hydrate/queue-init,
then the sticky fast path, then the full scan; never falls back to an
ineligible account (line 981). -/
def getNextAvailableAccount (env : Env) (st0 : ManagerState)
    (forceRotate : Bool) (modelId : Option String) (now : Nat) :
    Option Credential × ManagerState :=
  let st1 := ensureLoaded env st0
  let st2 := if st1.accounts.isEmpty then hydrateStep env.storeAccounts none st1 else st1
  selectCore env forceRotate modelId now (ensureQueueInitialized st2)

/-- The quota test of `getAccountById` (lines 1013-1022): the whole block is
guarded by `if (modelId)`, so a missing or JS-falsy empty-string model id
skips it; otherwise it rejects only when a percentage is present and at or
below the reserve — an absent percentage passes. -/
def byIdQuotaRejects (env : Env) (accountId : String)
    (modelId : Option String) : Bool :=
  match modelId with
  | some mid =>
    if mid = "" then false   -- `if (modelId)`: "" is falsy, no quota check
    else
      match env.quotaPercent accountId mid with
      | some q => q ≤ env.reservePercent
      | none => false
  | none => false

/-- `getAccountById` (lines 988-1057): lazy load, targeted hydration,
disabled/global-lockout checks, the permissive quota check, token refresh
(whose failure sets a 60 s lockout and returns `null`), and the credential
result. -/
def getAccountById (env : Env) (st0 : ManagerState) (accountId : String)
    (modelId : Option String) (now : Nat) :
    Option Credential × ManagerState :=
  let st1 := ensureLoaded env st0
  let st2 := if (st1.findAccount accountId).isSome then st1
             else hydrateStep env.storeAccounts (some accountId) st1
  match st2.findAccount accountId with
  | none => (none, st2)
  | some a =>
    if env.isDisabled accountId then (none, st2)
    else if globallyLimited a now then (none, st2)
    else if byIdQuotaRejects env accountId modelId then (none, st2)
    else if needsRefresh a now then
      match env.refresh a.refreshToken with
      | none =>
        (none, st2.updAccount accountId
          (fun x => { x with rateLimitedUntil := some (now + 60000) }))
      | some (tok, expiresIn) =>
        let a1 := { a with accessToken := tok, expiresAt := now + expiresIn * 1000 }
        let a2 := if strTruthy a1.projectId then a1
                  else { a1 with projectId := env.resolveProject a1.accessToken }
        let st3 := st2.setAccount a2
        let pid := ensureProjectId env st3 a2
        (some { accessToken := a2.accessToken, projectId := pid.1,
                email := a2.email, accountId := a2.id }, pid.2)
    else
      let pid := ensureProjectId env st2 a
      (some { accessToken := a.accessToken, projectId := pid.1,
              email := a.email, accountId := a.id }, pid.2)

end ManagerState

/-!
## Concurrency guard (`acquireAccountLock`, lines 463-496)

`acquireAccountLock` serialises callers per account id through a promise
chain: the `k`-th call (in program order; the chain append at lines 465-473
runs synchronously, so arrival order is chain order) awaits the combined
promise of all earlier acquisitions, which only resolves once the
`(k-1)`-st holder's release function has run (`resolveNext` at line 491).
After that await, the caller sleeps until at least `MIN_REQUEST_INTERVAL_MS`
has elapsed since the previously recorded call start (lines 477-481) and
then records its own call start (line 482).

An execution is modelled by the times of these observable events for one
account id; `LockProtocol` states exactly the ordering facts guaranteed by
the code under a monotone clock:
* `grant_after_release`: the `k+1`-st acquisition passes `await previous`
  no earlier than the `k`-th release runs (promise chain, lines 472-475, 491);
* `spacing`: the sleep at lines 479-481 ends no earlier than the previous
  recorded start plus the minimum interval, and line 482 records the fresh
  clock value, so consecutive recorded starts are at least
  `MIN_REQUEST_INTERVAL_MS` apart;
* `release_after_grant`: a holder's release function runs only after its
  acquisition returned (the holder received the release function).
-/

/-- Event times of one account's acquisitions, in arrival (chain) order:
`grant k` is when acquisition `k` passed its waits and recorded its call
start; `release k` is when its release function first ran. -/
structure LockTrace where
  count : Nat
  grant : Nat → Nat
  release : Nat → Nat

/-- The ordering facts the promise chain and the interval sleep guarantee
(see the section comment for the line-by-line derivation). -/
structure LockProtocol (MIN : Nat) (tr : LockTrace) : Prop where
  grant_after_release : ∀ k, k + 1 < tr.count → tr.release k ≤ tr.grant (k + 1)
  spacing : ∀ k, k + 1 < tr.count → tr.grant k + MIN ≤ tr.grant (k + 1)
  release_after_grant : ∀ k, k < tr.count → tr.grant k ≤ tr.release k

/-!
## Concrete inputs and specification-side definitions used by the claims
-/

/-- The 429 body of the quota scenario. -/
def bodyC1 : String :=
  "\x7b\"error\":\x7b\"status\":\"RESOURCE_EXHAUSTED\",\"message\":\"Resource has been exhausted (e.g. check quota).\"\x7d\x7d"

/-- `JSON.parse bodyC1`. -/
def jsonC1 : Json :=
  .obj [("error", .obj [("status", .str "RESOURCE_EXHAUSTED"),
                        ("message", .str "Resource has been exhausted (e.g. check quota).")])]

/-- A `JSON.parse` oracle fixed on the scenario body. -/
def pjC1 : String → Option Json :=
  fun s => if s = bodyC1 then some jsonC1 else none

/-- A fresh account with no lockout state. -/
def freshAccount (id email : String) : Account :=
  { id := id, email := email, accessToken := "tok-" ++ id
    refreshToken := "ref-" ++ id, expiresAt := 0, projectId := some "proj"
    categoryRateLimits := .empty, rateLimitedUntil := none
    consecutiveFailures := 0 }

/-- The fallback keyword-scan rule exactly as the specification words it
(spec 4.1 step 3): rate-limit phrases, then "capacity", then "quota", then
bare "exhausted" without "quota", else unknown.  Compared against the
source-derived `keywordScan`. -/
def specKeywordScan (lower : String) : RateLimitReason :=
  if strIncludes lower "per minute" || strIncludes lower "rate limit"
      || strIncludes lower "too many requests" then
    .rate_limit_exceeded
  else if strIncludes lower "capacity" then .model_capacity_exhausted
  else if strIncludes lower "quota" then .quota_exhausted
  else if strIncludes lower "exhausted" && ¬ strIncludes lower "quota" then
    .rate_limit_exceeded
  else .unknown

/-- The operations of the amended queue/registry invariant: account
addition, removal, demotion and selection (`getNextAvailableAccount`). -/
inductive SafeOp where
  | add (p : PersistedAccount)
  | remove (idOrEmail : String)
  | demote (id : String)
  | select (env : Env) (forceRotate : Bool) (modelId : Option String) (now : Nat)

/-- Apply one operation to the manager state. -/
def safeStep (st : ManagerState) : SafeOp → ManagerState
  | .add p => st.addStep p
  | .remove s => st.removeStep s
  | .demote id => st.demoteStep id
  | .select env f m now =>
      (ManagerState.getNextAvailableAccount env st f m now).2

/-- The rotation-queue invariant of the claim: the queue is a permutation of
the registry's ids; `loaded` and key uniqueness record the `Map` semantics
and the performed initial load. -/
def QueueInv (st : ManagerState) : Prop :=
  st.accountQueue.Perm st.keysOf ∧ st.keysOf.Nodup ∧ st.loaded = true

/-- An account whose lockout state is fully reset. -/
def clearedLockouts (a : Account) : Prop :=
  a.rateLimitedUntil = none ∧ a.consecutiveFailures = 0 ∧
    a.categoryRateLimits = .empty

/-- A two-acquisition execution used as the C3 witness: the first holder is
granted at 0 and releases at 50, the second is granted at 300. -/
def wtr : LockTrace :=
  { count := 2, grant := fun k => 300 * k, release := fun k => 300 * k + 50 }

/-- A selection step's state output preserves the registry keys, the queue
and the loaded flag. -/
def SameShape (st' st : ManagerState) : Prop :=
  st'.keysOf = st.keysOf ∧ st'.accountQueue = st.accountQueue ∧
    st'.loaded = st.loaded

/-- Roster record of account `a` used in concrete runs. -/
def pA : PersistedAccount :=
  { id := "a", email := "a@example.com", accessToken := "ta"
    refreshToken := "ra", expiresAt := 0, projectId := some "pa" }

/-- Auth-store record of account `b` used in concrete runs. -/
def storedB : StoredAccount :=
  { id := "b", email := some "b@example.com", login := none
    accessToken := "tb", refreshToken := some "rb", expiresAt := some 0
    projectId := some "pb" }

/-- A benign environment: nothing disabled or blacklisted, ample quota, an
auth store holding only account `b`, and no roster file. -/
def envB : Env :=
  { isDisabled := fun _ => false
    isQuotaBlacklisted := fun _ _ => false
    quotaPercent := fun _ _ => some 50
    reservePercent := 0
    refresh := fun _ => none
    resolveProject := fun _ => some "proj-resolved"
    mockProjectId := "mock-proj"
    fileAccounts := []
    storeAccounts := [storedB] }

/-- The empty, already-loaded manager state. -/
def st0 : ManagerState :=
  { accounts := [], accountQueue := [], loaded := true
    lastUsedAccount := none, inFlightAccounts := [] }

/-- `envB` with an empty quota cache: every quota-percent lookup is `null`. -/
def envN : Env := { envB with quotaPercent := fun _ _ => none }

/-- A single-account loaded state. -/
def oneAccount (a : Account) : ManagerState :=
  { accounts := [a], accountQueue := [a.id], loaded := true
    lastUsedAccount := none, inFlightAccounts := [] }

/-- An account whose token sits inside the five-minute refresh margin at
`now = 0`. -/
def accE : Account :=
  { id := "e", email := "e@example.com", accessToken := "tokE"
    refreshToken := "refE", expiresAt := 1, projectId := some "pe"
    categoryRateLimits := .empty, rateLimitedUntil := none
    consecutiveFailures := 0 }

/-!
## Helper lemmas
-/

theorem charsInfix_iff (n : List Char) (h : List Char) :
    charsInfix n h = true ↔ n <:+: h := by
  induction h with
  | nil =>
    simp [charsInfix, List.isEmpty_iff]
  | cons c rest ih =>
    simp [charsInfix, List.infix_cons_iff, List.isPrefixOf_iff_prefix, ih,
      Bool.or_eq_true]

theorem strIncludes_iff (hay needle : String) :
    strIncludes hay needle = true ↔ needle.toList <:+: hay.toList :=
  charsInfix_iff _ _

theorem includes_capacity {l : String}
    (h : strIncludes l "model_capacity" = true) :
    strIncludes l "capacity" = true := by
  rw [strIncludes_iff] at h ⊢
  exact List.IsInfix.trans (by decide) h

/-- The source's fallback scan agrees with the scan as the spec words it. -/
theorem keywordScan_eq_specKeywordScan (s : String) :
    keywordScan s = specKeywordScan (strToLower s) := by
  unfold keywordScan specKeywordScan
  by_cases hrl : (strIncludes (strToLower s) "per minute"
      || strIncludes (strToLower s) "rate limit"
      || strIncludes (strToLower s) "too many requests") = true
  · simp [hrl]
  · by_cases hcap : strIncludes (strToLower s) "capacity" = true
    · simp [hrl, hcap]
    · have hmc : strIncludes (strToLower s) "model_capacity" = false := by
        cases hmc2 : strIncludes (strToLower s) "model_capacity"
        · rfl
        · exact absurd (includes_capacity hmc2) (by simp [hcap])
      by_cases hq : strIncludes (strToLower s) "quota" = true
      · simp [hrl, hcap, hmc, hq]
      · by_cases hex : strIncludes (strToLower s) "exhausted" = true
        · simp [hrl, hcap, hmc, hq, hex]
        · simp [hrl, hcap, hmc, hq, hex]

/-!
## Claim C1
-/

/-- C1, counterexample: the 429 `RESOURCE_EXHAUSTED` quota body is indeed
classified `quota_exhausted`, but the first consecutive failure locks the
account for 10000 ms (the generic-429 fallback of
`markRateLimitedFromError`), not for the shortest tier of the escalating
schedule, which is `defaultRateLimitMs quota_exhausted 1 = 300000` ms. -/
theorem claim_c1_counterexample :
    parseRateLimitReason pjC1 429 bodyC1 = .quota_exhausted ∧
    (markRateLimitedFromError pjC1 ⟨none, none, 0, none⟩
        (freshAccount "acct-a" "a@example.com") 429 bodyC1 none 1000).1
      = some (.quota_exhausted, 10000) ∧
    (markRateLimitedFromError pjC1 ⟨none, none, 0, none⟩
        (freshAccount "acct-a" "a@example.com") 429 bodyC1 none 1000).2.rateLimitedUntil
      = some 11000 ∧
    defaultRateLimitMs .quota_exhausted 1 = 300000 ∧ (10000 : Nat) ≠ 300000 := by
  refine ⟨by decide, by decide, by decide, by decide, by decide⟩

/-- C1 (amended): with no Retry-After-derived delay and no cached reset
time, the classifier returns `quota_exhausted` for the scenario body, and
the first consecutive failure locks the account for 10 seconds — the
generic-429 fallback of optimisation 3 — because for status 429 the
escalating `defaultRateLimitMs` schedule is never consulted; the failure
counter still increments by one. -/
theorem claim_c1_amended (a : Account) (now jitter : Nat) (maxCap : Option Nat) :
    parseRateLimitReason pjC1 429 bodyC1 = .quota_exhausted ∧
    markRateLimitedFromError pjC1 ⟨none, none, jitter, maxCap⟩ a 429 bodyC1 none now
      = (some (.quota_exhausted, 10000),
         { a with rateLimitedUntil := some (now + 10000),
                  consecutiveFailures := a.consecutiveFailures + 1 }) := by
  have hr : parseRateLimitReason pjC1 429 bodyC1 = .quota_exhausted := by decide
  refine ⟨hr, ?_⟩
  unfold markRateLimitedFromError
  cases maxCap <;>
    simp [hr, getModelCategory, strTruthy]

/-!
## Claim C2
-/

/-- C2, counterexample: for status 400 with body `"rate limit"` (an input
that is neither a 5xx nor a 429, and where structured JSON parsing yields no
verdict), the classifier returns `unknown` without consulting the keyword
scan, while the scan of the claim would give `rate_limit_exceeded` — the
keyword scan only ever runs for status 429. -/
theorem claim_c2_counterexample :
    structuredVerdict pjC1 "rate limit" = none ∧
    parseRateLimitReason pjC1 400 "rate limit" = .unknown ∧
    specKeywordScan (strToLower "rate limit") = .rate_limit_exceeded := by
  refine ⟨by decide, by decide, by decide⟩

/-- C2 (amended): statuses ≥ 500 (necessarily ≠ 429) map to `server_error`;
other non-429 statuses map to `unknown` regardless of the body; and for
status 429, whenever structured JSON parsing yields no verdict, the
lowercased-body keyword scan — exactly as the claim lists it — decides the
reason. -/
theorem claim_c2_amended (pj : String → Option Json) (sc : Nat) (txt : String) :
    (sc ≥ 500 → sc ≠ 429 → parseRateLimitReason pj sc txt = .server_error) ∧
    (sc ≠ 429 → sc < 500 → parseRateLimitReason pj sc txt = .unknown) ∧
    (sc = 429 → structuredVerdict pj txt = none →
      parseRateLimitReason pj sc txt = specKeywordScan (strToLower txt)) := by
  refine ⟨?_, ?_, ?_⟩
  · intro h5 hne
    simp [parseRateLimitReason, hne, h5]
  · intro hne hlt
    have h5 : ¬ sc ≥ 500 := by omega
    simp [parseRateLimitReason, hne, h5]
  · intro h429 hsv
    subst h429
    simp [parseRateLimitReason, hsv, keywordScan_eq_specKeywordScan]

/-- Witness for the amended C2 at concrete inputs. -/
theorem claim_c2_witness :
    parseRateLimitReason pjC1 503 "oops" = .server_error ∧
    parseRateLimitReason pjC1 400 "quota low" = .unknown ∧
    parseRateLimitReason pjC1 429 "please slow down, rate limit reached"
      = specKeywordScan (strToLower "please slow down, rate limit reached") :=
  ⟨(claim_c2_amended pjC1 503 "oops").1 (by decide) (by decide),
   (claim_c2_amended pjC1 400 "quota low").2.1 (by decide) (by decide),
   (claim_c2_amended pjC1 429 "please slow down, rate limit reached").2.2
     rfl (by decide)⟩

/-!
## Claim C6
-/

/-- C6: for any reason, the cool-down duration is non-decreasing in the
consecutive-failure count, and the quota-exhaustion schedule is bounded by
its two-hour ceiling, reached exactly from the fourth consecutive failure
onward. -/
theorem claim_c6_monotone (reason : RateLimitReason) (n m : Nat) (h : n ≤ m) :
    defaultRateLimitMs reason n ≤ defaultRateLimitMs reason m ∧
    defaultRateLimitMs .quota_exhausted m ≤ 2 * 60 * 60000 ∧
    (4 ≤ m → defaultRateLimitMs .quota_exhausted m = 2 * 60 * 60000) := by
  refine ⟨?_, ?_, ?_⟩
  · cases reason <;> simp only [defaultRateLimitMs] <;> try omega
    split_ifs <;> omega
  · simp only [defaultRateLimitMs]
    split_ifs <;> omega
  · intro h4
    simp only [defaultRateLimitMs]
    split_ifs <;> omega

/-- Witness for C6 at concrete failure counts. -/
theorem claim_c6_witness :
    defaultRateLimitMs .quota_exhausted 1 ≤ defaultRateLimitMs .quota_exhausted 4 ∧
    defaultRateLimitMs .quota_exhausted 4 ≤ 2 * 60 * 60000 ∧
    (4 ≤ 4 → defaultRateLimitMs .quota_exhausted 4 = 2 * 60 * 60000) :=
  claim_c6_monotone .quota_exhausted 1 4 (by decide)

/-!
## Claims C7 and C8
-/

theorem category_modelId_ne_empty {mid : String} {c : ModelCategory}
    (h : getModelCategory (some mid) = c) (hc : c ≠ .unknown) : mid ≠ "" := by
  intro he
  subst he
  rw [show getModelCategory (some "") = .unknown from by decide] at h
  exact hc h.symm

/-- C7: for any account and times, recording a lockout against an
image-category model never changes whether the account is rate-limited for
an llm-category model, and vice versa; and category-scoped eligibility holds
iff both the global lockout and the matching category's lockout are absent
or expired. -/
theorem claim_c7_scope_independence (a : Account) (now d t : Nat)
    (mImg mLlm : String)
    (hImg : getModelCategory (some mImg) = .image)
    (hLlm : getModelCategory (some mLlm) = .llm) :
    isAccountRateLimited (markRateLimited a now d (some mImg)) (some mLlm) t
      = isAccountRateLimited a (some mLlm) t ∧
    isAccountRateLimited (markRateLimited a now d (some mLlm)) (some mImg) t
      = isAccountRateLimited a (some mImg) t ∧
    (isAccountRateLimited a (some mLlm) t = false ↔
      globallyLimited a t = false ∧ categoryLimited a .llm t = false) := by
  have hImgNe : mImg ≠ "" := category_modelId_ne_empty hImg (by decide)
  have hLlmNe : mLlm ≠ "" := category_modelId_ne_empty hLlm (by decide)
  refine ⟨?_, ?_, ?_⟩
  · simp [markRateLimited, isAccountRateLimited, hImg, hLlm, hImgNe, hLlmNe,
      strTruthy, globallyLimited, CategoryRateLimits.set, CategoryRateLimits.get]
  · simp [markRateLimited, isAccountRateLimited, hImg, hLlm, hImgNe, hLlmNe,
      strTruthy, globallyLimited, CategoryRateLimits.set, CategoryRateLimits.get]
  · cases hg : globallyLimited a t <;>
      simp [isAccountRateLimited, hLlm, hLlmNe, categoryLimited, hg]

/-- Witness for C7 with a concretely locked account. -/
theorem claim_c7_witness :
    (isAccountRateLimited
        (markRateLimited (freshAccount "w" "w@example.com") 100 60000 (some "imagen-3"))
        (some "claude-sonnet") 200
      = isAccountRateLimited (freshAccount "w" "w@example.com") (some "claude-sonnet") 200) ∧
    (isAccountRateLimited
        (markRateLimited (freshAccount "w" "w@example.com") 100 60000 (some "claude-sonnet"))
        (some "imagen-3") 200
      = isAccountRateLimited (freshAccount "w" "w@example.com") (some "imagen-3") 200) ∧
    (isAccountRateLimited (freshAccount "w" "w@example.com") (some "claude-sonnet") 200 = false ↔
      globallyLimited (freshAccount "w" "w@example.com") 200 = false ∧
      categoryLimited (freshAccount "w" "w@example.com") .llm 200 = false) :=
  claim_c7_scope_independence (freshAccount "w" "w@example.com") 100 60000 200
    "imagen-3" "claude-sonnet" (by decide) (by decide)

/-- C8: recording a success for a model of a known category deletes that
category's lockout entry (timestamp and failure counter together) and leaves
the global scope and every other category untouched; recording a success
without a model clears the global scope and leaves the category entries
untouched. -/
theorem claim_c8_success_frame (a : Account) (mid : String) (c : ModelCategory)
    (h : getModelCategory (some mid) = c) (hc : c ≠ .unknown) :
    ((markSuccess a (some mid)).categoryRateLimits.get c = none ∧
     (∀ c', c' ≠ c → (markSuccess a (some mid)).categoryRateLimits.get c'
        = a.categoryRateLimits.get c') ∧
     (markSuccess a (some mid)).rateLimitedUntil = a.rateLimitedUntil ∧
     (markSuccess a (some mid)).consecutiveFailures = a.consecutiveFailures) ∧
    ((markSuccess a none).rateLimitedUntil = none ∧
     (markSuccess a none).consecutiveFailures = 0 ∧
     (markSuccess a none).categoryRateLimits = a.categoryRateLimits) := by
  have hne : mid ≠ "" := category_modelId_ne_empty h hc
  constructor
  · refine ⟨?_, ?_, ?_, ?_⟩
    · simp [markSuccess, h, hc, hne, strTruthy]
      cases c <;> simp [CategoryRateLimits.del, CategoryRateLimits.get]
    · intro c' hcc
      simp [markSuccess, h, hc, hne, strTruthy]
      cases c <;> cases c' <;>
        simp_all [CategoryRateLimits.del, CategoryRateLimits.get]
    · simp [markSuccess, h, hc, hne, strTruthy]
    · simp [markSuccess, h, hc, hne, strTruthy]
  · simp [markSuccess, getModelCategory, strTruthy]

/-- Witness for C8 with a concretely locked account. -/
theorem claim_c8_witness :
    ((markSuccess ⟨"w", "w@example.com", "t", "r", 0, some "p",
        ⟨some ⟨9000, 1⟩, some ⟨7000, 3⟩, none⟩, some 5000, 2⟩
        (some "claude-1")).categoryRateLimits.get .llm = none ∧
     (markSuccess ⟨"w", "w@example.com", "t", "r", 0, some "p",
        ⟨some ⟨9000, 1⟩, some ⟨7000, 3⟩, none⟩, some 5000, 2⟩
        (some "claude-1")).categoryRateLimits.get .image
       = (Account.mk "w" "w@example.com" "t" "r" 0 (some "p")
            ⟨some ⟨9000, 1⟩, some ⟨7000, 3⟩, none⟩ (some 5000) 2).categoryRateLimits.get .image ∧
     (markSuccess ⟨"w", "w@example.com", "t", "r", 0, some "p",
        ⟨some ⟨9000, 1⟩, some ⟨7000, 3⟩, none⟩, some 5000, 2⟩
        (some "claude-1")).rateLimitedUntil = some 5000) := by
  have hfull := claim_c8_success_frame
    ⟨"w", "w@example.com", "t", "r", 0, some "p",
      ⟨some ⟨9000, 1⟩, some ⟨7000, 3⟩, none⟩, some 5000, 2⟩
    "claude-1" .llm (by decide) (by decide)
  exact ⟨hfull.1.1, hfull.1.2.1 .image (by decide), hfull.1.2.2.1⟩

/-!
## Claim C9
-/

theorem ofPersisted_cleared (p : PersistedAccount) :
    clearedLockouts (ManagerState.ofPersisted p) := by
  simp [clearedLockouts, ManagerState.ofPersisted]

theorem ofStored_cleared (s : StoredAccount) :
    clearedLockouts (ManagerState.ofStored s) := by
  simp [clearedLockouts, ManagerState.ofStored]

theorem mapSet_cleared {accs : List Account} {ids : List String}
    (p : PersistedAccount)
    (h : ∀ a ∈ accs, a.id ∈ ids → clearedLockouts a) :
    ∀ a ∈ ManagerState.mapSet accs (ManagerState.ofPersisted p),
      a.id ∈ p.id :: ids → clearedLockouts a := by
  intro a ha hid
  unfold ManagerState.mapSet at ha
  split at ha
  · rcases List.mem_map.mp ha with ⟨x, hx, hxa⟩
    by_cases hxi : x.id = (ManagerState.ofPersisted p).id
    · rw [if_pos hxi] at hxa
      exact hxa ▸ ofPersisted_cleared p
    · rw [if_neg hxi] at hxa
      subst hxa
      rcases List.mem_cons.mp hid with hpid | hin
      · exact absurd (by simpa [ManagerState.ofPersisted] using hpid) hxi
      · exact h x hx hin
  · rcases List.mem_append.mp ha with hin | hnew
    · rcases List.mem_cons.mp hid with hpid | hid'
      · rename_i hnone
        exact absurd (List.mem_map_of_mem (·.id) hin)
          (by simpa [List.any_eq_true, ManagerState.ofPersisted, hpid] using hnone)
      · exact h a hin hid'
    · have : a = ManagerState.ofPersisted p := by simpa using hnew
      exact this ▸ ofPersisted_cleared p

theorem loadFold_cleared (file : List PersistedAccount) (s : ManagerState)
    (ids : List String)
    (h : ∀ a ∈ s.accounts, a.id ∈ ids → clearedLockouts a) :
    ∀ a ∈ (file.foldl
        (fun (s : ManagerState) (p : PersistedAccount) =>
          { s with accounts := ManagerState.mapSet s.accounts (ManagerState.ofPersisted p) }) s).accounts,
      a.id ∈ file.map (·.id) ++ ids → clearedLockouts a := by
  induction file generalizing s ids with
  | nil => simpa using h
  | cons p rest ih =>
    intro a ha hid
    have step := ih { s with accounts := ManagerState.mapSet s.accounts (ManagerState.ofPersisted p) }
      (p.id :: ids) (mapSet_cleared p h)
    refine step a (by simpa using ha) ?_
    simp only [List.map_cons, List.cons_append, List.mem_cons, List.mem_append] at hid ⊢
    tauto

theorem hydrateFold_cleared (items : List StoredAccount) (s : ManagerState)
    (ids : List String)
    (h : ∀ a ∈ s.accounts, a.id ∈ ids → clearedLockouts a) :
    ∀ a ∈ (items.foldl
        (fun (s : ManagerState) (stored : StoredAccount) =>
          if s.accounts.any (fun a => a.id = stored.id) then s
          else { s with accounts := s.accounts ++ [ManagerState.ofStored stored] })
        s).accounts,
      a.id ∈ ids → clearedLockouts a := by
  induction items generalizing s with
  | nil => simpa using h
  | cons x rest ih =>
    intro a ha hid
    refine ih (if s.accounts.any (fun a => a.id = x.id) then s
        else { s with accounts := s.accounts ++ [ManagerState.ofStored x] }) ?_ a ?_ hid
    · intro b hb hbid
      split at hb
      · exact h b hb hbid
      · rcases List.mem_append.mp hb with hin | hnew
        · exact h b hin hbid
        · have : b = ManagerState.ofStored x := by simpa using hnew
          exact this ▸ ofStored_cleared x
    · simpa using ha

theorem hydrate_cleared {store : List StoredAccount} {filter : Option String}
    {s : ManagerState} {ids : List String}
    (h : ∀ a ∈ s.accounts, a.id ∈ ids → clearedLockouts a) :
    ∀ a ∈ (ManagerState.hydrateStep store filter s).accounts,
      a.id ∈ ids → clearedLockouts a := by
  unfold ManagerState.hydrateStep
  exact hydrateFold_cleared _ s ids h

/-- C9: the persisted roster record carries exactly the six credential
fields of each account (the `PersistedAccount` record type has no lockout or
failure-count field), and loading a saved roster resets, for every account
id present in the roster, the global lockout to `null`, the
consecutive-failure counter to `0` and the category lockout map to empty —
whatever the lockout state was when the roster was saved. -/
theorem claim_c9_persistence (s0 s1 : ManagerState) (store : List StoredAccount) :
    (∀ p, p ∈ ManagerState.saveRoster s0 ↔ ∃ a, a ∈ s0.accounts ∧
        p = { id := a.id, email := a.email, accessToken := a.accessToken,
              refreshToken := a.refreshToken, expiresAt := a.expiresAt,
              projectId := a.projectId }) ∧
    (∀ a ∈ (ManagerState.loadStep (ManagerState.saveRoster s0) store s1).accounts,
      a.id ∈ (ManagerState.saveRoster s0).map (·.id) → clearedLockouts a) := by
  constructor
  · intro p
    simp only [ManagerState.saveRoster, List.mem_map]
    constructor
    · rintro ⟨a, ha, rfl⟩; exact ⟨a, ha, rfl⟩
    · rintro ⟨a, ha, rfl⟩; exact ⟨a, ha, rfl⟩
  · intro a ha hid
    unfold ManagerState.loadStep at ha
    simp only at ha
    split at ha
    · exact hydrate_cleared
        (loadFold_cleared (ManagerState.saveRoster s0) s1 []
          (by intro b _ hb; simp at hb))
        a ha (by simpa using hid)
    · exact loadFold_cleared (ManagerState.saveRoster s0) s1 []
        (by intro b _ hb; simp at hb) a ha (by simpa using hid)

/-!
## Claim C3
-/

/-- C3: in every execution of the per-account lock protocol, no two holders
overlap (every earlier acquisition's release precedes a later acquisition's
grant), acquisitions are granted in FIFO request order, and each successor's
recorded call start is at least `MIN_REQUEST_INTERVAL_MS` after the prior
call's recorded start.  `MIN` is the value of `MIN_REQUEST_INTERVAL_MS`
(defined in `lib/constants`, outside this subsystem's sources; the protocol
facts hold for any value). -/
theorem claim_c3_lock_protocol (MIN : Nat) (tr : LockTrace)
    (hp : LockProtocol MIN tr) :
    (∀ j k, j < k → k < tr.count → tr.release j ≤ tr.grant k) ∧
    (∀ j k, j ≤ k → k < tr.count → tr.grant j ≤ tr.grant k) ∧
    (∀ k, k + 1 < tr.count → tr.grant k + MIN ≤ tr.grant (k + 1)) := by
  have key : ∀ k, k < tr.count → ∀ j, j < k → tr.release j ≤ tr.grant k := by
    intro k
    induction k with
    | zero => omega
    | succ n ihn =>
      intro hk j hj
      rcases Nat.lt_succ_iff_lt_or_eq.mp hj with hlt | heq
      · have h1 : tr.release j ≤ tr.grant n := ihn (by omega) j hlt
        have h2 : tr.grant n ≤ tr.release n := hp.release_after_grant n (by omega)
        have h3 : tr.release n ≤ tr.grant (n + 1) := hp.grant_after_release n hk
        omega
      · subst heq; exact hp.grant_after_release j hk
  refine ⟨fun j k hjk hk => key k hk j hjk, ?_, hp.spacing⟩
  intro j k hjk hk
  rcases Nat.lt_or_ge j k with hlt | hge
  · have h1 : tr.release j ≤ tr.grant k := key k hk j hlt
    have h2 : tr.grant j ≤ tr.release j := hp.release_after_grant j (by omega)
    omega
  · have : j = k := by omega
    subst this; omega

/-- Witness for C3 on the concrete two-acquisition trace with a 100 ms
minimum interval. -/
theorem claim_c3_witness :
    wtr.release 0 ≤ wtr.grant 1 ∧ wtr.grant 0 ≤ wtr.grant 1 ∧
    wtr.grant 0 + 100 ≤ wtr.grant 1 := by
  have hp : LockProtocol 100 wtr :=
    ⟨fun k hk => by simp [wtr]; omega,
     fun k hk => by simp [wtr]; omega,
     fun k hk => by simp [wtr]⟩
  have h := claim_c3_lock_protocol 100 wtr hp
  exact ⟨h.1 0 1 (by decide) (by decide), h.2.1 0 1 (by decide) (by decide),
    h.2.2 0 (by decide)⟩

/-!
## Claim C4: state-shape lemmas for the selection path
-/

theorem SameShape.refl (st : ManagerState) : SameShape st st := ⟨rfl, rfl, rfl⟩

theorem SameShape.trans {s3 s2 s1 : ManagerState}
    (h32 : SameShape s3 s2) (h21 : SameShape s2 s1) : SameShape s3 s1 :=
  ⟨h32.1.trans h21.1, h32.2.1.trans h21.2.1, h32.2.2.trans h21.2.2⟩

theorem filter_ids (l : List Account) (p : String → Bool) :
    (l.filter (fun a => p a.id)).map (fun a : Account => a.id)
      = (l.map (fun a : Account => a.id)).filter p := by
  induction l with
  | nil => rfl
  | cons x t ih =>
    by_cases h : p x.id = true
    · simp [h, ih]
    · simp only [Bool.not_eq_true] at h
      simp [h, ih]

theorem updAccount_sameShape (st : ManagerState) (i : String)
    (f : Account → Account) (h : ∀ x, x.id = i → (f x).id = x.id) :
    SameShape (st.updAccount i f) st := by
  refine ⟨?_, rfl, rfl⟩
  unfold ManagerState.updAccount ManagerState.keysOf
  simp only [List.map_map, Function.comp]
  apply List.map_congr_left
  intro a _
  by_cases hai : a.id = i
  · simp [hai, h a hai]
  · simp [hai]

theorem setAccount_sameShape (st : ManagerState) (a : Account) :
    SameShape (st.setAccount a) st :=
  updAccount_sameShape st a.id _ (fun _ hx => hx.symm)

theorem ensureProjectId_sameShape (env : Env) (st : ManagerState) (a : Account) :
    SameShape (ManagerState.ensureProjectId env st a).2 st := by
  unfold ManagerState.ensureProjectId
  split
  · exact SameShape.refl st
  · exact setAccount_sameShape st _

theorem finishSelect_sameShape (env : Env) (now : Nat) (st : ManagerState)
    (a : Account) :
    SameShape (ManagerState.finishSelect env now st a).2 st := by
  unfold ManagerState.finishSelect
  exact (ensureProjectId_sameShape env _ a).trans ⟨rfl, rfl, rfl⟩

theorem fastPath_sameShape {env : Env} {st : ManagerState} {force : Bool}
    {modelId : Option String} {now : Nat} {idle : Bool}
    {res : Option Credential × ManagerState}
    (h : ManagerState.fastPath env st force modelId now idle = some res) :
    SameShape res.2 st := by
  simp only [ManagerState.fastPath] at h
  split at h
  · exact Option.noConfusion h
  · split at h
    · exact Option.noConfusion h
    · split at h
      · exact Option.noConfusion h
      · split at h
        · exact Option.noConfusion h
        · split at h
          · exact Option.noConfusion h
          · split at h
            · exact Option.noConfusion h
            · split at h
              · exact Option.noConfusion h
              · injection h with h1
                subst h1
                split
                · rename_i hcase
                  split
                  · exact (finishSelect_sameShape env now _ _).trans
                      (setAccount_sameShape st _)
                  · exact finishSelect_sameShape env now st _
                · exact finishSelect_sameShape env now st _

theorem scanQueue_sameShape (env : Env) (modelId : Option String) (now : Nat)
    (idle : Bool) :
    ∀ (ids : List String) (st : ManagerState),
      SameShape (ManagerState.scanQueue env modelId now idle ids st).2 st := by
  intro ids
  induction ids with
  | nil => intro st; exact SameShape.refl st
  | cons id rest ih =>
    intro st
    simp only [ManagerState.scanQueue]
    split
    · exact ih st
    · split
      · exact ih st
      · split
        · exact ih st
        · split
          · exact ih st
          · split
            · exact ih st
            · split
              · split
                · exact (ih _).trans (updAccount_sameShape st id _ (fun x _ => rfl))
                · exact (finishSelect_sameShape env now _ _).trans
                    (setAccount_sameShape st _)
              · exact finishSelect_sameShape env now st _

theorem sameShape_inv {st' st : ManagerState} (hs : SameShape st' st)
    (h : QueueInv st) : QueueInv st' := by
  unfold QueueInv
  rw [hs.1, hs.2.1, hs.2.2]
  exact h

theorem hydrateFold_facts (items : List StoredAccount) (s : ManagerState) :
    (items.foldl
        (fun (s : ManagerState) (stored : StoredAccount) =>
          if s.accounts.any (fun a => a.id = stored.id) then s
          else { s with accounts := s.accounts ++ [ManagerState.ofStored stored] })
        s).accountQueue = s.accountQueue ∧
    (items.foldl
        (fun (s : ManagerState) (stored : StoredAccount) =>
          if s.accounts.any (fun a => a.id = stored.id) then s
          else { s with accounts := s.accounts ++ [ManagerState.ofStored stored] })
        s).loaded = s.loaded ∧
    (s.keysOf.Nodup →
      (items.foldl
        (fun (s : ManagerState) (stored : StoredAccount) =>
          if s.accounts.any (fun a => a.id = stored.id) then s
          else { s with accounts := s.accounts ++ [ManagerState.ofStored stored] })
        s).keysOf.Nodup) := by
  induction items generalizing s with
  | nil => exact ⟨rfl, rfl, fun h => h⟩
  | cons x rest ih =>
    simp only [List.foldl_cons]
    by_cases hx : s.accounts.any (fun a => a.id = x.id) = true
    · rw [if_pos hx]
      exact ih s
    · rw [if_neg hx]
      obtain ⟨hq, hl, hn⟩ := ih { s with accounts := s.accounts ++ [ManagerState.ofStored x] }
      refine ⟨hq, hl, fun hnd => hn ?_⟩
      have hnotin : x.id ∉ s.keysOf := by
        intro hmm
        rcases List.mem_map.mp hmm with ⟨a, ha, hai⟩
        exact hx (List.any_eq_true.mpr ⟨a, ha, by simp [hai]⟩)
      simp [ManagerState.keysOf, List.nodup_append] at hnd ⊢
      exact ⟨hnd, by simpa [ManagerState.ofStored, ManagerState.keysOf] using hnotin⟩

theorem hydrateStep_facts (store : List StoredAccount) (filter : Option String)
    (st : ManagerState) :
    (ManagerState.hydrateStep store filter st).accountQueue = st.accountQueue ∧
    (ManagerState.hydrateStep store filter st).loaded = st.loaded ∧
    (st.keysOf.Nodup → (ManagerState.hydrateStep store filter st).keysOf.Nodup) := by
  unfold ManagerState.hydrateStep
  exact hydrateFold_facts _ st

theorem mapSet_keys_present {accs : List Account} {acc : Account}
    (h : accs.any (fun x => x.id = acc.id) = true) :
    (ManagerState.mapSet accs acc).map (fun a : Account => a.id)
      = accs.map (fun a : Account => a.id) := by
  unfold ManagerState.mapSet
  rw [if_pos h]
  simp only [List.map_map, Function.comp]
  apply List.map_congr_left
  intro x _
  by_cases hx : x.id = acc.id
  · simp [hx]
  · simp [hx]

theorem mapSet_keys_absent {accs : List Account} {acc : Account}
    (h : ¬ accs.any (fun x => x.id = acc.id) = true) :
    (ManagerState.mapSet accs acc).map (fun a : Account => a.id)
      = accs.map (fun a : Account => a.id) ++ [acc.id] := by
  unfold ManagerState.mapSet
  rw [if_neg h]
  simp

theorem addStep_inv {st : ManagerState} {p : PersistedAccount}
    (h : QueueInv st) : QueueInv (st.addStep p) := by
  obtain ⟨hperm, hnodup, hload⟩ := h
  unfold ManagerState.addStep
  by_cases hmem : st.accounts.any (fun x => x.id = (ManagerState.ofPersisted p).id) = true
  · have hkeys := mapSet_keys_present hmem
    have hid_keys : (ManagerState.ofPersisted p).id ∈ st.keysOf := by
      rcases List.any_eq_true.mp hmem with ⟨x, hx, hxe⟩
      simp only [decide_eq_true_eq] at hxe
      exact hxe ▸ List.mem_map_of_mem _ hx
    have hq : ({ st with accounts := ManagerState.mapSet st.accounts (ManagerState.ofPersisted p) } : ManagerState).accountQueue.contains (ManagerState.ofPersisted p).id = true := by
      simpa [List.elem_iff] using hperm.mem_iff.mpr hid_keys
    rw [if_pos hq]
    exact ⟨by simpa [ManagerState.keysOf, hkeys] using hperm,
      by simpa [ManagerState.keysOf, hkeys] using hnodup, hload⟩
  · have hkeys := mapSet_keys_absent hmem
    have hid_keys : (ManagerState.ofPersisted p).id ∉ st.keysOf := by
      intro hmm
      rcases List.mem_map.mp hmm with ⟨a, ha, hai⟩
      exact hmem (List.any_eq_true.mpr ⟨a, ha, by simp [hai]⟩)
    have hnq : ¬ ({ st with accounts := ManagerState.mapSet st.accounts (ManagerState.ofPersisted p) } : ManagerState).accountQueue.contains (ManagerState.ofPersisted p).id = true := by
      simpa [List.elem_iff] using fun hmm => hid_keys (hperm.mem_iff.mp hmm)
    rw [if_neg hnq]
    refine ⟨?_, ?_, hload⟩
    · simpa [ManagerState.keysOf, hkeys] using hperm.append_right [(ManagerState.ofPersisted p).id]
    · simp only [ManagerState.keysOf] at hkeys hnodup hid_keys ⊢
      rw [hkeys]
      simp [List.nodup_append, hnodup, hid_keys]

theorem deleteIdStep_inv {st : ManagerState} (id : String)
    (h : QueueInv st) : QueueInv (ManagerState.deleteIdStep st id) := by
  obtain ⟨hperm, hnodup, hload⟩ := h
  have hkeys : (ManagerState.deleteIdStep st id).keysOf
      = st.keysOf.filter (fun x => decide (x ≠ id)) := by
    unfold ManagerState.deleteIdStep ManagerState.keysOf
    exact filter_ids st.accounts (fun x => decide (x ≠ id))
  refine ⟨?_, ?_, hload⟩
  · rw [hkeys]
    have h1 : (ManagerState.deleteIdStep st id).accountQueue
        = st.accountQueue.erase id := rfl
    rw [h1]
    have h2 := hperm.erase id
    rw [hnodup.erase_eq_filter id] at h2
    have h3 : st.keysOf.filter (fun x => x != id)
        = st.keysOf.filter (fun x => decide (x ≠ id)) := by
      apply List.filter_congr
      intro x _
      by_cases hx : x = id
      · simp [hx]
      · simp [hx, bne_iff_ne]
    rwa [h3] at h2
  · rw [hkeys]
    exact hnodup.filter _

theorem removeStep_inv {st : ManagerState} {idOrEmail : String}
    (h : QueueInv st) : QueueInv (st.removeStep idOrEmail) := by
  unfold ManagerState.removeStep
  split
  · exact deleteIdStep_inv idOrEmail h
  · split
    · exact deleteIdStep_inv _ h
    · exact h

theorem demoteStep_inv {st : ManagerState} {id : String}
    (h : QueueInv st) : QueueInv (st.demoteStep id) := by
  obtain ⟨hperm, hnodup, hload⟩ := h
  unfold ManagerState.demoteStep
  split
  · rename_i hc
    have hmem : id ∈ st.accountQueue := List.elem_iff.mp hc
    refine ⟨?_, hnodup, hload⟩
    have hp1 : (st.accountQueue.erase id ++ [id]).Perm (id :: st.accountQueue.erase id) :=
      List.perm_append_singleton id _
    have hp2 : (id :: st.accountQueue.erase id).Perm st.accountQueue :=
      (List.perm_cons_erase hmem).symm
    exact (hp1.trans hp2).trans hperm
  · exact ⟨hperm, hnodup, hload⟩

theorem ensureQueueInitialized_inv {st : ManagerState}
    (hq : st.accountQueue = [] ∨ st.accountQueue.Perm st.keysOf)
    (hnodup : st.keysOf.Nodup) (hload : st.loaded = true) :
    QueueInv (ManagerState.ensureQueueInitialized st) := by
  unfold ManagerState.ensureQueueInitialized
  split
  · exact ⟨List.Perm.refl _, hnodup, hload⟩
  · rename_i hcond
    rcases hq with hnil | hperm
    · refine ⟨?_, hnodup, hload⟩
      have hqe : st.accountQueue.isEmpty = true := by simp [hnil]
      have hacc : st.accounts.isEmpty = true := by
        by_contra hx
        exact hcond ⟨hqe, hx⟩
      have hkeys : st.keysOf = [] := by
        simp [ManagerState.keysOf, List.isEmpty_iff.mp hacc]
      rw [hnil, hkeys]
    · exact ⟨hperm, hnodup, hload⟩

theorem selectCore_inv {env : Env} {force : Bool} {modelId : Option String}
    {now : Nat} {st3 : ManagerState} (h : QueueInv st3) :
    QueueInv (ManagerState.selectCore env force modelId now st3).2 := by
  unfold ManagerState.selectCore
  split
  · exact h
  · split
    · rename_i res hfp
      exact sameShape_inv (fastPath_sameShape hfp) h
    · exact sameShape_inv (scanQueue_sameShape env modelId now _ _ st3) h

theorem selectStep_inv {env : Env} {force : Bool} {modelId : Option String}
    {now : Nat} {st : ManagerState} (h : QueueInv st) :
    QueueInv (ManagerState.getNextAvailableAccount env st force modelId now).2 := by
  obtain ⟨hperm, hnodup, hload⟩ := h
  have h1 : ManagerState.ensureLoaded env st = st := by
    unfold ManagerState.ensureLoaded
    rw [hload]
    rfl
  have hinv3 : QueueInv (ManagerState.ensureQueueInitialized
      (if st.accounts.isEmpty then
        ManagerState.hydrateStep env.storeAccounts none st else st)) := by
    by_cases hemp : st.accounts.isEmpty = true
    · have hkeys : st.keysOf = [] := by
        simp [ManagerState.keysOf, List.isEmpty_iff.mp hemp]
      have hqnil : st.accountQueue = [] := by
        rw [hkeys] at hperm
        exact hperm.eq_nil
      obtain ⟨hhq, hhl, hhn⟩ := hydrateStep_facts env.storeAccounts none st
      rw [if_pos hemp]
      exact ensureQueueInitialized_inv (Or.inl (hhq.trans hqnil))
        (hhn hnodup) (hhl.trans hload)
    · rw [if_neg hemp]
      exact ensureQueueInitialized_inv (Or.inr hperm) hnodup hload
  unfold ManagerState.getNextAvailableAccount
  rw [h1]
  exact selectCore_inv hinv3

/-- C4, counterexample: starting from the empty loaded manager, `addAccount`
for `a` followed by `getAccountById` for `b` (present only in the auth
store, so it is hydrated into the registry without touching the queue)
leaves the registry with ids `[a, b]` but the queue with `[a]` — the queue
is not a permutation of the registry's ids after a hydrate operation. -/
theorem claim_c4_counterexample :
    ((ManagerState.getAccountById envB (ManagerState.addStep st0 pA) "b" none 0).2.keysOf
        = ["a", "b"]) ∧
    ((ManagerState.getAccountById envB (ManagerState.addStep st0 pA) "b" none 0).2.accountQueue
        = ["a"]) ∧
    ¬ ((ManagerState.getAccountById envB (ManagerState.addStep st0 pA) "b" none 0).2.accountQueue.Perm
        (ManagerState.getAccountById envB (ManagerState.addStep st0 pA) "b" none 0).2.keysOf) := by
  refine ⟨by decide, by decide, by decide⟩

/-- C4 (amended): after any sequence of `addAccount`, `removeAccount`,
`moveToEndOfQueue` and `getNextAvailableAccount` operations from a loaded
state whose queue is a duplicate-free permutation of the registry ids, the
queue remains such a permutation: ids are appended on add, removed on
delete, moved to the tail on demotion — never duplicated, never dropped.
(The load/hydrate paths, exercised by the counterexample, can register
accounts without enqueuing them and are excluded here.) -/
theorem claim_c4_amended (ops : List SafeOp) (st : ManagerState)
    (h : QueueInv st) : QueueInv (ops.foldl safeStep st) := by
  induction ops generalizing st with
  | nil => exact h
  | cons op rest ih =>
    refine ih _ ?_
    cases op with
    | add p => exact addStep_inv h
    | remove s => exact removeStep_inv h
    | demote id => exact demoteStep_inv h
    | select env f m now => exact selectStep_inv h

/-- Witness for the amended C4 on a concrete operation sequence. -/
theorem claim_c4_witness :
    QueueInv (List.foldl safeStep st0
      [SafeOp.add pA, SafeOp.demote "a", SafeOp.select envB false none 0,
       SafeOp.remove "a"]) :=
  claim_c4_amended
    [SafeOp.add pA, SafeOp.demote "a", SafeOp.select envB false none 0,
     SafeOp.remove "a"] st0 ⟨by decide, by decide, by decide⟩

/-!
## Claim C5
-/

/-- C5, counterexample: `getAccountById` *selects* an account whose external
quota-percent lookup returns `null` (the permissive check at lines 1013-1022
rejects only a present percentage at or below the reserve), so a null-quota
account is not "never selected". -/
theorem claim_c5_counterexample :
    (ManagerState.getAccountById envN (ManagerState.addStep st0 pA) "a"
        (some "claude-1") 0).1
      = some { accessToken := "ta", projectId := "pa",
               email := "a@example.com", accountId := "a" } := by
  decide

/-- C5 (amended): whenever a (JS-truthy, i.e. non-empty) model id is
supplied, `getNextAvailableAccount`'s quota gate makes a `null`
quota-percent account ineligible, and with a percentage the account is
eligible iff it strictly exceeds the reserve; in particular the only
account having `null` quota makes selection return "not found" even with no
lockout present.  `getAccountById`, however, treats `null` as eligible: its
quota check rejects exactly a present percentage at or below the reserve. -/
theorem claim_c5_amended (env : Env) (a : Account) (mid : String) (now : Nat)
    (hmid : mid ≠ "")
    (hnd : env.isDisabled a.id = false)
    (hnb : env.isQuotaBlacklisted a.id mid = false)
    (hnl : a.rateLimitedUntil = none) :
    (env.quotaPercent a.id mid = none →
      ManagerState.hasModelQuota env (oneAccount a) (some mid) a.id = false ∧
      (ManagerState.getNextAvailableAccount env (oneAccount a) false (some mid) now).1
        = none) ∧
    (∀ q, env.quotaPercent a.id mid = some q →
      (ManagerState.hasModelQuota env (oneAccount a) (some mid) a.id = true
        ↔ q > env.reservePercent)) ∧
    (env.quotaPercent a.id mid = none →
      ManagerState.byIdQuotaRejects env a.id (some mid) = false) ∧
    (∀ q, env.quotaPercent a.id mid = some q →
      (ManagerState.byIdQuotaRejects env a.id (some mid) = true
        ↔ q ≤ env.reservePercent)) := by
  refine ⟨?_, ?_, ?_, ?_⟩
  · intro hquota
    constructor
    · simp [ManagerState.hasModelQuota, oneAccount, ManagerState.findAccount,
        hmid, hnb, hquota, List.find?]
    · simp [ManagerState.getNextAvailableAccount, ManagerState.ensureLoaded, oneAccount,
        ManagerState.selectCore, ManagerState.fastPath, ManagerState.findAccount,
        ManagerState.hasModelQuota, ManagerState.scanQueue, hmid, hnd, hnb, hnl, hquota,
        globallyLimited, ManagerState.ensureQueueInitialized, List.find?]
  · intro q hq
    simp [ManagerState.hasModelQuota, oneAccount, ManagerState.findAccount,
      hmid, hnb, hq, List.find?]
  · intro hquota
    simp [ManagerState.byIdQuotaRejects, hmid, hquota]
  · intro q hq
    simp [ManagerState.byIdQuotaRejects, hmid, hq]

/-- Witness for the amended C5 in the all-null-quota environment. -/
theorem claim_c5_witness :
    (envN.quotaPercent "a" "claude-1" = none →
      ManagerState.hasModelQuota envN (oneAccount (ManagerState.ofPersisted pA))
        (some "claude-1") "a" = false ∧
      (ManagerState.getNextAvailableAccount envN
        (oneAccount (ManagerState.ofPersisted pA)) false (some "claude-1") 0).1 = none) ∧
    (envN.quotaPercent "a" "claude-1" = none →
      ManagerState.byIdQuotaRejects envN "a" (some "claude-1") = false) := by
  have h := claim_c5_amended envN (ManagerState.ofPersisted pA) "claude-1" 0
    (by decide) (by decide) (by decide) (by decide)
  exact ⟨h.1, h.2.2.1⟩

/-!
## Claim C10
-/

/-- C10: on the non-forced sticky fast path, when the queue-head account's
token is inside the five-minute expiry margin and the refresh throws,
`getNextAvailableAccount` still returns the head with its previous access
token and mutates nothing but the sticky marker (no lockout); with the same
refresh failure during the full-queue scan (entered here by forcing
rotation) the account receives a 60-second lockout and is skipped, leaving
no selectable account. -/
theorem claim_c10_refresh_divergence (env : Env) (a : Account) (now : Nat)
    (p : String)
    (hnd : env.isDisabled a.id = false)
    (hnl : a.rateLimitedUntil = none)
    (hexp : a.expiresAt > 0)
    (hmargin : now + 5 * 60 * 1000 > a.expiresAt)
    (hrefresh : env.refresh a.refreshToken = none)
    (hproj : a.projectId = some p) (hp1 : p ≠ "") (hp2 : p ≠ "unknown") :
    (ManagerState.getNextAvailableAccount env (oneAccount a) false none now).1
      = some { accessToken := a.accessToken, projectId := p,
               email := a.email, accountId := a.id } ∧
    (ManagerState.getNextAvailableAccount env (oneAccount a) false none now).2
      = { oneAccount a with lastUsedAccount := some (a.id, now) } ∧
    (ManagerState.getNextAvailableAccount env (oneAccount a) true none now).1
      = none ∧
    ((ManagerState.getNextAvailableAccount env (oneAccount a) true none now).2.findAccount a.id).map
        (fun x => x.rateLimitedUntil) = some (some (now + 60000)) := by
  refine ⟨?_, ?_, ?_, ?_⟩
  · simp [ManagerState.getNextAvailableAccount, ManagerState.ensureLoaded, oneAccount,
      ManagerState.selectCore, ManagerState.fastPath, ManagerState.findAccount,
      ManagerState.hasModelQuota, ManagerState.scanQueue, hnd, hnl, hrefresh,
      globallyLimited, ManagerState.ensureQueueInitialized, List.find?,
      ManagerState.needsRefresh, hexp, hmargin, ManagerState.finishSelect,
      ManagerState.ensureProjectId, ManagerState.projectUsable, hproj, hp1, hp2]
  · simp [ManagerState.getNextAvailableAccount, ManagerState.ensureLoaded, oneAccount,
      ManagerState.selectCore, ManagerState.fastPath, ManagerState.findAccount,
      ManagerState.hasModelQuota, ManagerState.scanQueue, hnd, hnl, hrefresh,
      globallyLimited, ManagerState.ensureQueueInitialized, List.find?,
      ManagerState.needsRefresh, hexp, hmargin, ManagerState.finishSelect,
      ManagerState.ensureProjectId, ManagerState.projectUsable, hproj, hp1, hp2]
  · simp [ManagerState.getNextAvailableAccount, ManagerState.ensureLoaded, oneAccount,
      ManagerState.selectCore, ManagerState.fastPath, ManagerState.findAccount,
      ManagerState.hasModelQuota, ManagerState.scanQueue, hnd, hnl, hrefresh,
      globallyLimited, ManagerState.ensureQueueInitialized, List.find?,
      ManagerState.needsRefresh, hexp, hmargin, ManagerState.updAccount]
  · simp [ManagerState.getNextAvailableAccount, ManagerState.ensureLoaded, oneAccount,
      ManagerState.selectCore, ManagerState.fastPath, ManagerState.findAccount,
      ManagerState.hasModelQuota, ManagerState.scanQueue, hnd, hnl, hrefresh,
      globallyLimited, ManagerState.ensureQueueInitialized, List.find?,
      ManagerState.needsRefresh, hexp, hmargin, ManagerState.updAccount]

/-- Witness for C10 with a concrete in-margin account and a failing
refresher. -/
theorem claim_c10_witness :
    (ManagerState.getNextAvailableAccount envB (oneAccount accE) false none 0).1
      = some { accessToken := "tokE", projectId := "pe",
               email := "e@example.com", accountId := "e" } ∧
    (ManagerState.getNextAvailableAccount envB (oneAccount accE) true none 0).1
      = none := by
  have h := claim_c10_refresh_divergence envB accE 0 "pe"
    (by decide) (by decide) (by decide) (by decide) rfl rfl
    (by decide) (by decide)
  exact ⟨h.1, h.2.2.1⟩

end AntiApi
